import Mathlib

set_option maxRecDepth 200000
set_option maxHeartbeats 1000000

/-!
Verification of the article-extraction pipeline of `src/scraper.py`
(class `NewsExtractor`).

Texts are modelled as `List Char` (Python `str`), wrapped into `String` at
the record level.  Python regular expressions are modelled by explicit
scanners over `List Char`; `re.sub(pat, '', text)` is modelled by `subAll`,
which scans left to right, deletes each leftmost match and resumes after it,
exactly as Python's `re.sub` does.  Character classes use ASCII semantics
(the texts the claims exercise are ASCII).  Machine integers do not occur:
all counts are `Nat`.

External effects are modelled as environment data: the outcome of the
reachability probe, of the newspaper3k parser and of the fallback HTML fetch
are inputs to the orchestrator, and `dateutil.parser.parse` is an oracle
`String → Option Nat` (a parsed timestamp, `none` on a parse failure).
-/

/-- Python `\s` (ASCII): the whitespace characters collapsed by the cleaner. -/
def isWsC (c : Char) : Bool :=
  c = ' ' || c = '\t' || c = '\n' || c = '\r' || c = Char.ofNat 11 || c = Char.ofNat 12

/-- ASCII lowering, as Python `str.lower` acts on ASCII letters. -/
def lowerC (c : Char) : Char :=
  if 'A' ≤ c && c ≤ 'Z' then Char.ofNat (c.toNat + 32) else c

/-- Python `\w` (ASCII): letters, digits and underscore. -/
def isWordC (c : Char) : Bool := c.isAlphanum || c = '_'

/-- The character class kept by `re.sub(r'[^\w\s.,!?;:()\[\]{}"\'-]', ' ', text)`
in `_clean_extracted_text`: word characters, whitespace and the listed
punctuation (codes 34, 39, 123, 125 are the double quote, the apostrophe and
the two curly braces). -/
def isSafeC (c : Char) : Bool :=
  isWordC c || isWsC c || c = '.' || c = ',' || c = '!' || c = '?' || c = ';' ||
  c = ':' || c = '(' || c = ')' || c = '[' || c = ']' || c = Char.ofNat 123 ||
  c = Char.ofNat 125 || c = Char.ofNat 34 || c = Char.ofNat 39 || c = '-'

/-- ASCII lowering of a text. -/
def lowerL (l : List Char) : List Char := l.map lowerC

/-- Python `str.split()` (no argument): the maximal whitespace-free words of a
text, used for every `len(text.split())` word count in `scraper.py`. -/
def wordsL : List Char → List (List Char)
  | [] => []
  | c :: rest =>
    if isWsC c then wordsL rest
    else
      match rest, wordsL rest with
      | [], _ => [[c]]
      | c' :: _, ws =>
        if isWsC c' then [c] :: ws
        else
          match ws with
          | w :: tl => (c :: w) :: tl
          | [] => [[c]]

/-- `len(text.split())`, the word count used throughout `scraper.py`. -/
def wcL (l : List Char) : Nat := (wordsL l).length

/-- Word count of a `String`. -/
def wcS (s : String) : Nat := wcL s.data

/-- `re.sub(r'\s+', ' ', text)`: every maximal whitespace run becomes one
space.  A whitespace character inside a run (one followed by more
whitespace) is dropped; the last character of a run becomes the single
space. -/
def collapseWs : List Char → List Char
  | [] => []
  | [c] => if isWsC c then [' '] else [c]
  | c :: c' :: rest =>
    if isWsC c then
      if isWsC c' then collapseWs (c' :: rest)
      else ' ' :: collapseWs (c' :: rest)
    else c :: collapseWs (c' :: rest)

/-- Python `str.strip()`: drop leading and trailing whitespace. -/
def stripL (l : List Char) : List Char :=
  (((l.dropWhile isWsC).reverse).dropWhile isWsC).reverse

/-- Python `text.split('\n')` (keeps empty pieces). -/
def splitNl : List Char → List (List Char)
  | [] => [[]]
  | c :: rest =>
    if c = '\n' then [] :: splitNl rest
    else
      match splitNl rest with
      | h :: t => (c :: h) :: t
      | [] => [[c]]

/-- Sentence-ending characters of `re.split(r'[.!?]+', text)`. -/
def isSentC (c : Char) : Bool := c = '.' || c = '!' || c = '?'

/-- Python `re.split(r'[.!?]+', text)`: pieces between maximal runs of
sentence enders (a run of enders is a single separator). -/
def splitSent : List Char → List (List Char)
  | [] => [[]]
  | c :: rest =>
    let r := splitSent rest
    if isSentC c then
      match rest with
      | c' :: _ => if isSentC c' then r else [] :: r
      | [] => [] :: r
    else
      match r with
      | h :: t => (c :: h) :: t
      | [] => [[c]]

/-- Python `pat in text`: substring test. -/
def containsL (pat : List Char) : List Char → Bool
  | [] => pat.isPrefixOf []
  | c :: rest => pat.isPrefixOf (c :: rest) || containsL pat rest

/-- Case-insensitive "starts with": `pat` is given lowercase and is compared
against the ASCII-lowered input, as `re.IGNORECASE` matches literals. -/
def ciStarts : List Char → List Char → Bool
  | [], _ => true
  | _ :: _, [] => false
  | p :: ps, c :: cs => p = lowerC c && ciStarts ps cs

/-- Matcher for a case-insensitive literal phrase: the match length at the
head of the input, if the phrase starts there. -/
def litM (pat : List Char) (s : List Char) : Option Nat :=
  if ciStarts pat s then some pat.length else none

/-- `related articles?`: the optional trailing `s` is matched greedily. -/
def relatedArticlesM (s : List Char) : Option Nat :=
  if ciStarts "related articles".data s then some 16
  else if ciStarts "related article".data s then some 15
  else none

/-- `also read:?`: the optional trailing colon is matched greedily. -/
def alsoReadM (s : List Char) : Option Nat :=
  if ciStarts "also read:".data s then some 10
  else if ciStarts "also read".data s then some 9
  else none

/-- Non-greedy `.*?pat`: the least number of characters (none of them a
newline, which `.` does not match) skipped before `pat` starts. -/
def gapScan (pat : List Char) : List Char → Option Nat
  | [] => if ciStarts pat [] then some 0 else none
  | c :: rest =>
    if ciStarts pat (c :: rest) then some 0
    else if c = '\n' then none
    else (gapScan pat rest).map (· + 1)

/-- Matcher for `pre.*?pat` (case-insensitive, non-greedy gap). -/
def gapM (pre pat : List Char) (s : List Char) : Option Nat :=
  if ciStarts pre s then
    match gapScan pat (s.drop pre.length) with
    | some k => some (pre.length + k + pat.length)
    | none => none
  else none

/-- The `unwanted_phrases` of `_clean_extracted_text`, in source order, each
as a matcher returning the length of a match at the head of the input. -/
def phraseMatchers : List (List Char → Option Nat) :=
  [ gapM "subscribe to".data "newsletter".data
  , gapM "follow us on".data "social media".data
  , litM "share this article".data
  , relatedArticlesM
  , litM "advertisement".data
  , litM "click here".data
  , litM "read more".data
  , litM "continue reading".data
  , alsoReadM
  , litM "trending now".data
  , litM "breaking news".data
  , litM "live updates".data ]

/-- `re.sub(pat, '', text)`: scan left to right; delete each leftmost match
and resume right after it (the fuel is the length of the text, and every
step consumes at least one character).  The matcher also receives the
character preceding the current position, for word-boundary tests.  A
reported match length of `0` is treated as no match (no pattern of the
cleaner can match the empty string). -/
def subAllF (m : Option Char → List Char → Option Nat) :
    Nat → Option Char → List Char → List Char
  | 0, _, l => l
  | _ + 1, _, [] => []
  | fuel + 1, prev, c :: rest =>
    match m prev (c :: rest) with
    | some (n + 1) =>
      subAllF m fuel (((c :: rest).take (n + 1)).getLast?) ((c :: rest).drop (n + 1))
    | _ => c :: subAllF m fuel (some c) rest

/-- `re.sub(pat, '', text)` over a whole text. -/
def subAll (m : Option Char → List Char → Option Nat) (l : List Char) : List Char :=
  subAllF m l.length none l

/-- One phrase-removal pass of `_clean_extracted_text`. -/
def subPhrase (t : List Char) (m : List Char → Option Nat) : List Char :=
  subAll (fun _ s => m s) t

/-- The `for phrase in unwanted_phrases: text = re.sub(phrase, '', text,
flags=re.IGNORECASE)` loop of `_clean_extracted_text`. -/
def phrasesSubL (t : List Char) : List Char := phraseMatchers.foldl subPhrase t

/-- The character class of the URL pattern of `_clean_extracted_text`:
`[a-zA-Z]`, `[0-9]`, `[$-_@.&+]` (the ASCII range 36–95) and `[!*(),]`.
The `%XX` alternative adds no further characters: `%` and the hex digits
are each already in the class, so the set of matched strings is unchanged. -/
def isUrlC (c : Char) : Bool :=
  c.isAlpha || c.isDigit || (36 ≤ c.toNat && c.toNat ≤ 95) ||
  c = '!' || c = '*' || c = '(' || c = ')' || c = ','

/-- Matcher for the URL pattern `http[s]?://(...)+` (case-sensitive): the
literal scheme, then a maximal nonempty run of URL characters. -/
def urlM (s : List Char) : Option Nat :=
  if "https://".data.isPrefixOf s then
    let run := (s.drop 8).takeWhile isUrlC
    if run.length = 0 then none else some (8 + run.length)
  else if "http://".data.isPrefixOf s then
    let run := (s.drop 7).takeWhile isUrlC
    if run.length = 0 then none else some (7 + run.length)
  else none

/-- Local-part characters `[A-Za-z0-9._%+-]` of the email pattern. -/
def isLocalC (c : Char) : Bool :=
  c.isAlphanum || c = '.' || c = '_' || c = '%' || c = '+' || c = '-'

/-- Domain characters `[A-Za-z0-9.-]` of the email pattern. -/
def isDomC (c : Char) : Bool := c.isAlphanum || c = '.' || c = '-'

/-- Characters of `[A-Z|a-z]` (the class literally contains `|`). -/
def isTldC (c : Char) : Bool := c.isAlpha || c = '|'

/-- Whether an optional character is a word character (absent counts as
non-word, as `\b` treats the ends of the string). -/
def isWordOpt : Option Char → Bool
  | some c => isWordC c
  | none => false

/-- Backtracking of the email pattern `...@[A-Za-z0-9.-]+\.[A-Z|a-z]{2,}\b`
after the `@`: the dot index is searched from the right end of the maximal
domain-character run (the greedy `+` backtracks from the longest split), the
top-level part is the greedy run of `[A-Z|a-z]` after the dot and needs
length at least 2 and a word boundary after it (modelled as: the following
character, if any, is not a word character; backtracking inside the `{2,}`
is not modelled — no text handled by the claims contains an email). -/
def emailDotSearch (r : List Char) : Nat → Option Nat
  | 0 => none
  | k + 1 =>
    if 1 ≤ k && r.get? k = some '.' then
      let tld := (r.drop (k + 1)).takeWhile isTldC
      if 2 ≤ tld.length && !isWordOpt ((r.drop (k + 1 + tld.length)).head?) then
        some (k + 1 + tld.length)
      else emailDotSearch r k
    else emailDotSearch r k

/-- Matcher for the email pattern
`\b[A-Za-z0-9._%+-]+@[A-Za-z0-9.-]+\.[A-Z|a-z]{2,}\b`: a nonempty greedy
local part starting at a word boundary, an `@`, and a domain with a dot
split found by `emailDotSearch`. -/
def emailM (prev : Option Char) (s : List Char) : Option Nat :=
  if (s.takeWhile isLocalC).length = 0 then none
  else if isWordOpt prev = isWordOpt s.head? then none
  else
    match s.drop (s.takeWhile isLocalC).length with
    | a :: r =>
      if a = '@' then
        match emailDotSearch r (r.takeWhile isDomC).length with
        | some tlen => some ((s.takeWhile isLocalC).length + 1 + tlen)
        | none => none
      else none
    | [] => none

/-- The URL-removal pass of `_clean_extracted_text`. -/
def urlSubL (t : List Char) : List Char := subAll (fun _ s => urlM s) t

/-- The email-removal pass of `_clean_extracted_text`. -/
def emailSubL (t : List Char) : List Char := subAll emailM t

/-- `re.sub(r'[^\w\s.,!?;:()\[\]{}"\'-]', ' ', text)`: characters outside
the safe class become spaces. -/
def charFilterL (t : List Char) : List Char :=
  t.map (fun c => if isSafeC c then c else ' ')

/-- The residual boilerplate markers of the final line filter of
`_clean_extracted_text`. -/
def bannedWords : List (List Char) :=
  [ "advertisement".data, "sponsored".data, "cookie".data,
    "privacy policy".data, "terms of service".data ]

/-- The line filter of `_clean_extracted_text`: a stripped line is kept when
it is longer than 10 characters and its lowering contains none of the
banned markers. -/
def keepLineB (line : List Char) : Bool :=
  decide (10 < line.length) && !(bannedWords.any fun w => containsL w (lowerL line))

/-- Python `' '.join(lines)`. -/
def joinSp (ls : List (List Char)) : List Char := List.intercalate [' '] ls

/-- The last step of `_clean_extracted_text`: split on newlines, strip each
line, keep the good lines, join with spaces and strip the result. -/
def lineFilterL (t : List Char) : List Char :=
  stripL (joinSp (((splitNl t).map stripL).filter keepLineB))

/-- `NewsExtractor._clean_extracted_text` (src/scraper.py:316-362): empty
text is returned unchanged; otherwise collapse whitespace, remove the
unwanted phrases, URLs and email addresses, replace unsafe characters by
spaces, collapse whitespace again and apply the line filter. -/
def clean_extracted_text (t : List Char) : List Char :=
  if t = [] then []
  else
    lineFilterL (collapseWs (charFilterL (emailSubL (urlSubL (phrasesSubL (collapseWs t))))))

/-- The cleaner on `String`s. -/
def cleanS (s : String) : String := ⟨clean_extracted_text s.data⟩

/-- Python `str.lower` on a `String` (ASCII). -/
def lowerS (s : String) : String := ⟨lowerL s.data⟩

/-- Python `str.strip()` on a `String`. -/
def stripS (s : String) : String := ⟨stripL s.data⟩

/-- `re.sub(r'\s+', ' ', s)` on a `String`. -/
def collapseS (s : String) : String := ⟨collapseWs s.data⟩

/-- Python slicing `s[:n]` of a string. -/
def takeS (s : String) (n : Nat) : String := ⟨s.data.take n⟩

/-- Python `pat in s` on `String`s. -/
def containsS (pat s : String) : Bool := containsL pat.data s.data

/-- The dict passed to `_validate_and_clean_data` / `_calculate_quality_score`
(its keys at those call sites; `extracted_at`, a wall-clock timestamp, is not
modelled — no claim depends on it).  A publish date is an abstract parsed
timestamp (`Nat`); `datetime` objects are always truthy in Python, `None` is
falsy, so truthiness of `publish_date` is `Option.isSome`. -/
structure RawData where
  title : String
  text : String
  authors : List String
  publish_date : Option Nat
  source_url : String
  word_count : Nat
  extraction_method : String
deriving DecidableEq

/-- The final article record returned by a successful extraction. -/
structure ArticleRecord where
  title : String
  text : String
  authors : List String
  publish_date : Option Nat
  source_url : String
  word_count : Nat
  extraction_method : String
  quality_score : Nat
deriving DecidableEq

/-- `NewsExtractor._calculate_quality_score` (src/scraper.py:392-438),
written exactly as the source accumulates `score`: word-count bands, title
bands (the sentinel test is `'not found' not in title.lower()`), +10 for a
nonempty author list, +10 for a present publish date, sentence-density
bands over `re.split(r'[.!?]+', text)` pieces of stripped length > 10,
capped at 100. -/
def calculate_quality_score (d : RawData) : Nat :=
  let score := 0
  let score := score +
    (if 1000 < d.word_count then 40
     else if 500 < d.word_count then 35
     else if 300 < d.word_count then 30
     else if 200 < d.word_count then 25
     else if 100 < d.word_count then 20
     else 10)
  let score := score +
    (if 20 < d.title.data.length && !containsS "not found" (lowerS d.title) then 20
     else if 10 < d.title.data.length then 15
     else if 5 < d.title.data.length then 10
     else 0)
  let score := score + (if d.authors ≠ [] && 0 < d.authors.length then 10 else 0)
  let score := score + (if d.publish_date.isSome then 10 else 0)
  let sentences := ((splitSent d.text.data).filter fun s => 10 < (stripL s).length).length
  let score := score +
    (if 20 < sentences then 20
     else if 10 < sentences then 15
     else if 5 < sentences then 10
     else 0)
  min score 100

/-- The generic author placeholders rejected by `_validate_and_clean_data`. -/
def placeholderAuthors : List String := ["admin", "editor", "staff"]

/-- `NewsExtractor._validate_and_clean_data` (src/scraper.py:364-390): the
title is truncated to 200 characters and whitespace-normalized, the text is
cleaned and the word count recomputed from the cleaned text, authors are
filtered (shorter than 100 characters, lowercase not a placeholder) and
capped at 5, and the quality score is computed from the mutated dict.  The
`if data.get(...)` guards are Python truthiness: an empty string or list is
left untouched. -/
def validate_and_clean_data (d : RawData) : ArticleRecord :=
  let title := if d.title ≠ "" then stripS (collapseS (takeS d.title 200)) else d.title
  let text := if d.text ≠ "" then cleanS d.text else d.text
  let word_count := if d.text ≠ "" then wcS text else d.word_count
  let authors :=
    if d.authors ≠ [] then
      (d.authors.filter fun a => a.data.length < 100 && !placeholderAuthors.contains (lowerS a)).take 5
    else d.authors
  let d' : RawData :=
    { title := title, text := text, authors := authors, publish_date := d.publish_date,
      source_url := d.source_url, word_count := word_count,
      extraction_method := d.extraction_method }
  { title := title, text := text, authors := authors, publish_date := d.publish_date,
    source_url := d.source_url, word_count := word_count,
    extraction_method := d.extraction_method,
    quality_score := calculate_quality_score d' }

/-- A parsed JSON-LD script for `_extract_publish_date` method 5: the code
inspects a dict's `datePublished`, or, for a list, the `datePublished` of
its dict items; anything else is ignored. -/
inductive LdNode where
  | dict (datePublished : Option String)
  | arr (items : List LdNode)
  | other

/-- The parts of a fallback page the claims need, as BeautifulSoup would expose them.
Each field holds the text content the corresponding query of `scraper.py`
would return, in document order, after the unwanted-element removal:
`selectorTexts` are the `get_text(strip=True, separator=' ')` of the
elements matched by each of the 13 `content_selectors` (one inner list per
selector, in selector order); `paragraphTexts` the `get_text(strip=True)`
of all `<p>` elements; `divTexts` the `get_text(strip=True)` of all `<div>`
elements; `bodyText` the full-page `soup.get_text(strip=True, separator=' ')`.
`resolvedTitle` abstracts `_extract_title(soup)` (title resolution is not
under any claim).  `authorSelTexts` are the stripped texts matched by each
of the 7 `author_selectors`; the `meta*` fields are the `content` attributes
of the corresponding meta tags (`none` when the tag is missing);
`timeDatetimes` the `datetime` attributes of the `<time>` elements (`none`
when absent); `ldScripts` the JSON-LD scripts (`none` when `json.loads`
fails). -/
structure Soup where
  selectorTexts : List (List String)
  paragraphTexts : List String
  divTexts : List String
  bodyText : String
  resolvedTitle : String
  authorSelTexts : List (List String)
  metaNameAuthor : Option String
  metaArticleAuthor : Option String
  metaPublishedTime : Option String
  metaPublishdate : Option String
  metaDate : Option String
  timeDatetimes : List (Option String)
  ldScripts : List (Option LdNode)

/-- `NewsExtractor._extract_content` (src/scraper.py:184-217): the first
selector-matched element with more than 100 words wins; otherwise the
concatenated paragraphs if nonempty and over 100 words; otherwise the first
div with more than 200 words; otherwise the full body text.  The winning
text is cleaned. -/
def extract_content (soup : Soup) : String :=
  match (soup.selectorTexts.flatten).find? (fun t => 100 < wcS t) with
  | some t => cleanS t
  | none =>
    let combined := " ".intercalate soup.paragraphTexts
    if soup.paragraphTexts ≠ [] && 100 < wcS combined then cleanS combined
    else
      match soup.divTexts.find? (fun t => 200 < wcS t) with
      | some t => cleanS t
      | none => cleanS soup.bodyText

/-- `NewsExtractor._extract_authors` (src/scraper.py:219-246): selector
matches that are nonempty and shorter than 100 characters, then the
stripped contents of the author meta tags, deduplicated.  `list(set(...))`
has unspecified order; it is modelled as first-occurrence deduplication
(no claim depends on the order). -/
def extract_authors (soup : Soup) : List String :=
  let fromSel := soup.authorSelTexts.flatten.filter fun a => a ≠ "" && a.data.length < 100
  let fromMeta :=
    ([soup.metaNameAuthor, soup.metaArticleAuthor].filterMap id).filterMap fun c =>
      if c ≠ "" then some (stripS c) else none
  ((fromSel ++ fromMeta).reverse.dedup).reverse

/-- The `datePublished` candidate a JSON-LD script contributes: a dict's own
truthy `datePublished`, or the first truthy `datePublished` of a list's
dict items. -/
def ldCandidate : LdNode → Option String
  | .dict dp =>
    match dp with
    | some d => if d ≠ "" then some d else none
    | none => none
  | .arr items =>
    items.findSome? fun item =>
      match item with
      | .dict (some d) => if d ≠ "" then some d else none
      | _ => none
  | .other => none

/-- The body of one meta-tag method of `_extract_publish_date`: parse the
tag's content when the tag is present with truthy content; a parse failure
falls through. -/
def metaContentTry (parse : String → Option Nat) (o : Option String) : Option Nat :=
  match o with
  | some c => if c ≠ "" then parse c else none
  | none => none

/-- The body of the `<time>` loop of `_extract_publish_date`: parse the
`datetime` attribute when it is present and truthy. -/
def timeAttrTry (parse : String → Option Nat) (dt : Option String) : Option Nat :=
  match dt with
  | some a => if a ≠ "" then parse a else none
  | none => none

/-- The body of the JSON-LD loop of `_extract_publish_date`: parse the
script's first truthy `datePublished`, a parse failure (or an unreadable
script) moving on to the next script. -/
def ldScriptTry (parse : String → Option Nat) (sc : Option LdNode) : Option Nat :=
  match sc with
  | some node => (ldCandidate node).bind parse
  | none => none

/-- `NewsExtractor._extract_publish_date` (src/scraper.py:248-314), with
`dateutil.parser.parse` as the oracle `parse` (`none` models a parse
exception, which the code swallows before moving on): the
`article:published_time` meta property, the `publishdate` and `date` meta
names, the `datetime` attributes of `<time>` elements, then the JSON-LD
scripts, each strategy tried in order with `some` short-circuiting. -/
def extract_publish_date (parse : String → Option Nat) (soup : Soup) : Option Nat :=
  match metaContentTry parse soup.metaPublishedTime with
  | some d => some d
  | none =>
    match metaContentTry parse soup.metaPublishdate with
    | some d => some d
    | none =>
      match metaContentTry parse soup.metaDate with
      | some d => some d
      | none =>
        match soup.timeDatetimes.findSome? (timeAttrTry parse) with
        | some d => some d
        | none => soup.ldScripts.findSome? (ldScriptTry parse)

/-- The outcome of the `HEAD` reachability probe of `validate_url`: an HTTP
status, or a `requests` exception with its message. -/
inductive ProbeResult where
  | status (code : Nat)
  | exc (msg : String)

/-- The outcome of the newspaper3k primary attempt (an external library):
either `download()`/`parse()` raised, or it produced the parsed fields. -/
inductive PrimaryOutcome where
  | throws
  | parsed (title text : String) (authors : List String) (publish_date : Option Nat)

/-- The outcome of the fallback `session.get` + BeautifulSoup step: a
`requests` exception, any other exception, or a parsed page. -/
inductive FallbackFetch where
  | requestExc (msg : String)
  | otherExc (msg : String)
  | page (soup : Soup)

/-- Everything outside the process that one `extract_article(url)` call can
observe: the url, its syntactic validity (`validators.url`), the probe, the
primary parser's outcome, the fallback fetch's outcome and the date parser. -/
structure ExtractEnv where
  url : String
  syntacticallyValid : Bool
  probe : ProbeResult
  primary : PrimaryOutcome
  fallbackFetch : FallbackFetch
  parseDate : String → Option Nat

/-- The value `extract_article` returns: a record dict, or a dict with an
`'error'` key carrying the human-readable cause. -/
inductive ExtractResult where
  | record (r : ArticleRecord)
  | error (msg : String)
deriving DecidableEq

/-- `NewsExtractor.validate_url` (src/scraper.py:32-44): syntactic check,
then the `HEAD` probe; 200 is valid, any other status or exception invalid,
with the reason embedded. -/
def validate_url (env : ExtractEnv) : Bool × String :=
  if !env.syntacticallyValid then (false, "Invalid URL format")
  else
    match env.probe with
    | .status code =>
      if code = 200 then (true, "URL is accessible")
      else (false, "HTTP " ++ toString code ++ " error")
    | .exc msg => (false, "Connection error: " ++ msg)

/-- `NewsExtractor._fallback_extraction` (src/scraper.py:94-152): a fetch
exception is a terminal error; otherwise title, content, authors and date
are resolved from the page, and a record is produced when the extracted
(already cleaned) content is nonempty with more than 50 words, else the
"Insufficient content" error with the word count embedded. -/
def fallback_extraction (env : ExtractEnv) : ExtractResult :=
  match env.fallbackFetch with
  | .requestExc msg => .error ("Network error during fallback extraction: " ++ msg)
  | .otherExc msg => .error ("Fallback extraction failed: " ++ msg)
  | .page soup =>
    let text := extract_content soup
    if text ≠ "" && 50 < wcS text then
      .record (validate_and_clean_data
        { title := soup.resolvedTitle, text := text, authors := extract_authors soup,
          publish_date := extract_publish_date env.parseDate soup,
          source_url := env.url, word_count := wcS text,
          extraction_method := "fallback_beautifulsoup" })
    else
      .error ("Insufficient content extracted. Only " ++
        toString (if text = "" then 0 else wcS text) ++ " words found.")

/-- `NewsExtractor.extract_article` (src/scraper.py:46-92): validation
first (a failure is terminal); then the primary attempt — an exception, an
empty text or a raw word count of at most 50 routes to the fallback, and a
raw success whose cleaned record has fewer than 100 words also routes to
the fallback; otherwise the cleaned record is returned. -/
def extract_article (env : ExtractEnv) : ExtractResult :=
  let v := validate_url env
  if !v.1 then .error ("URL validation failed: " ++ v.2)
  else
    match env.primary with
    | .throws => fallback_extraction env
    | .parsed title text authors publish_date =>
      if text ≠ "" && 50 < wcS text then
        let cleaned := validate_and_clean_data
          { title := title, text := text, authors := authors,
            publish_date := publish_date, source_url := env.url,
            word_count := wcS text, extraction_method := "newspaper3k" }
        if 100 ≤ cleaned.word_count then .record cleaned
        else fallback_extraction env
      else fallback_extraction env

/-! ### The quality scorer against the specified bands -/

/-- Spec word-count band: >1000→40, >500→35, >300→30, >200→25, >100→20, else 10. -/
def wordCountComponent (wc : Nat) : Nat :=
  if 1000 < wc then 40
  else if 500 < wc then 35
  else if 300 < wc then 30
  else if 200 < wc then 25
  else if 100 < wc then 20
  else 10

/-- Spec title band: more than 20 characters and not carrying the
`not found` sentinel marker (case-insensitive) → 20; >10 → 15; >5 → 10;
else 0. -/
def titleComponent (title : String) : Nat :=
  if 20 < title.data.length && !containsS "not found" (lowerS title) then 20
  else if 10 < title.data.length then 15
  else if 5 < title.data.length then 10
  else 0

/-- Spec metadata band: +10 when at least one author is present, +10 when a
publish date is present. -/
def metadataComponent (authors : List String) (publish_date : Option Nat) : Nat :=
  (if authors ≠ [] then 10 else 0) + (if publish_date.isSome then 10 else 0)

/-- Spec pseudo-sentence count: segments split on `.`/`!`/`?` runs whose
trimmed length exceeds 10 characters. -/
def pseudoSentences (text : String) : Nat :=
  ((splitSent text.data).filter fun s => 10 < (stripL s).length).length

/-- Spec sentence-density band: >20→20, >10→15, >5→10, else 0. -/
def sentenceComponent (text : String) : Nat :=
  if 20 < pseudoSentences text then 20
  else if 10 < pseudoSentences text then 15
  else if 5 < pseudoSentences text then 10
  else 0

/-- The score of the source is the clamped sum of the four spec bands. -/
theorem calculate_quality_score_eq (d : RawData) :
    calculate_quality_score d =
      min (wordCountComponent d.word_count + titleComponent d.title +
           metadataComponent d.authors d.publish_date + sentenceComponent d.text) 100 := by
  unfold calculate_quality_score wordCountComponent titleComponent metadataComponent
    sentenceComponent pseudoSentences
  have ha : (decide (d.authors ≠ []) && decide (0 < d.authors.length)) =
      decide (d.authors ≠ []) := by
    cases d.authors <;> simp
  simp only [ha, Nat.zero_add, decide_eq_true_eq]
  omega

/-- The 1200-word, long-title, one-author, dated, 25-sentence scenario. -/
def scenarioText : String := ⟨(List.replicate 25 "this sentence has more than ten characters. ".data).flatten⟩

/-- The record of the scenario of claim C6. -/
def scenarioData : RawData :=
  { title := "An Extremely Informative Headline", text := scenarioText,
    authors := ["Jane Writer"], publish_date := some 1, source_url := "u",
    word_count := 1200, extraction_method := "newspaper3k" }

/-- Claim C6: for every input record the quality score equals the sum of the
four specified band components clamped to at most 100, hence lies in
[0,100]; it is a pure function of the record (determinism is inherent in
the definition); and the scenario record — 1200 words, a title longer than
20 characters without the sentinel marker, one author, a publish date and
25 pseudo-sentences — scores exactly 100. -/
theorem C6_quality_score_bands :
    (∀ d : RawData,
      calculate_quality_score d =
        min (wordCountComponent d.word_count + titleComponent d.title +
             metadataComponent d.authors d.publish_date + sentenceComponent d.text) 100) ∧
    (∀ d : RawData, calculate_quality_score d ≤ 100) ∧
    calculate_quality_score scenarioData = 100 := by
  refine ⟨calculate_quality_score_eq, fun d => ?_, by decide⟩
  rw [calculate_quality_score_eq]
  exact Nat.min_le_right _ _

/-- Claim C10: the word-count band never contributes fewer than 10 points,
so the quality score of every input record is at least 10 (and at most
100): the value 0 is never produced. -/
theorem C10_quality_score_at_least_10 :
    ∀ d : RawData, 10 ≤ calculate_quality_score d ∧ calculate_quality_score d ≤ 100 := by
  intro d
  rw [calculate_quality_score_eq]
  refine ⟨Nat.le_min.2 ⟨?_, by omega⟩, Nat.min_le_right _ _⟩
  have hw : 10 ≤ wordCountComponent d.word_count := by
    unfold wordCountComponent; repeat' split
    all_goals omega
  omega

/-! ### Validation and primary-failure routing -/

/-- A syntactically valid URL whose probe answers 200 validates. -/
theorem validate_url_ok (env : ExtractEnv) (hv : env.syntacticallyValid = true)
    (hp : env.probe = .status 200) : validate_url env = (true, "URL is accessible") := by
  unfold validate_url
  rw [hv, hp]
  simp

/-- Claim C7: when the probe returns a non-200 status on a syntactically
valid URL, `extract_article` returns the validation error with the HTTP
status embedded in the reason.  The environment's primary and fallback
components are arbitrary and the conclusion does not depend on them: no
extraction attempt influences the result. -/
theorem C7_non200_probe_terminal (env : ExtractEnv) (code : Nat)
    (hv : env.syntacticallyValid = true) (hp : env.probe = .status code)
    (hc : code ≠ 200) :
    extract_article env =
      .error ("URL validation failed: " ++ ("HTTP " ++ toString code ++ " error")) := by
  unfold extract_article validate_url
  rw [hv, hp]
  simp [hc]

/-- A page with no usable parts, for environments whose fallback fetch is
never reached or finds nothing. -/
def blankSoup : Soup :=
  { selectorTexts := [], paragraphTexts := [], divTexts := [], bodyText := "",
    resolvedTitle := "Title not found", authorSelTexts := [], metaNameAuthor := none,
    metaArticleAuthor := none, metaPublishedTime := none, metaPublishdate := none,
    metaDate := none, timeDatetimes := [], ldScripts := [] }

/-- An environment whose probe answers 404. -/
def probe404Env : ExtractEnv :=
  { url := "http://example.com/missing", syntacticallyValid := true,
    probe := .status 404, primary := .parsed "T" "some text" [] none,
    fallbackFetch := .page blankSoup, parseDate := fun _ => none }

/-- Witness for C7 at the 404 scenario. -/
theorem C7_witness :
    (404 : Nat) ≠ 200 ∧
    extract_article probe404Env =
      .error ("URL validation failed: " ++ ("HTTP " ++ toString (404 : Nat) ++ " error")) :=
  ⟨by decide, C7_non200_probe_terminal probe404Env 404 rfl rfl (by decide)⟩

/-- Claim C4: on a URL that passes validation, a failed primary attempt is
never terminal — an exception, an empty text, or a raw word count of at
most 50 all make `extract_article` return exactly what the fallback
extractor returns. -/
theorem C4_primary_failure_never_terminal :
    (∀ env : ExtractEnv, env.syntacticallyValid = true → env.probe = .status 200 →
      env.primary = .throws → extract_article env = fallback_extraction env) ∧
    (∀ (env : ExtractEnv) (title text : String) (aus : List String) (pd : Option Nat),
      env.syntacticallyValid = true → env.probe = .status 200 →
      env.primary = .parsed title text aus pd → text = "" ∨ wcS text ≤ 50 →
      extract_article env = fallback_extraction env) := by
  constructor
  · intro env hv hp hthrows
    unfold extract_article
    rw [validate_url_ok env hv hp, hthrows]
    simp
  · intro env title text aus pd hv hp hparsed hfail
    unfold extract_article
    rw [validate_url_ok env hv hp, hparsed]
    have hcond : (text ≠ "" && 50 < wcS text) = false := by
      rcases hfail with h | h
      · simp [h]
      · have : ¬ 50 < wcS text := by omega
        simp [this]
    simp only [hcond, Bool.false_eq_true, if_false]
    simp

/-- Environment for the thrown-primary case of C4. -/
def envC4throws : ExtractEnv :=
  { url := "http://example.com/a", syntacticallyValid := true, probe := .status 200,
    primary := .throws, fallbackFetch := .requestExc "timeout", parseDate := fun _ => none }

/-- Environment for the short-primary case of C4. -/
def envC4short : ExtractEnv :=
  { envC4throws with primary := .parsed "T" "hello world" [] none }

/-- Witness for C4: both failure modes at concrete environments. -/
theorem C4_witness :
    extract_article envC4throws = fallback_extraction envC4throws ∧
    (wcS "hello world" ≤ 50 ∧
     extract_article envC4short = fallback_extraction envC4short) :=
  ⟨C4_primary_failure_never_terminal.1 envC4throws rfl rfl rfl,
   by decide,
   C4_primary_failure_never_terminal.2 envC4short "T" "hello world" [] none rfl rfl rfl
     (Or.inr (by decide))⟩

/-- On nonempty text, the record's word count is recomputed from the
cleaned text. -/
theorem validate_word_count (d : RawData) (h : d.text ≠ "") :
    (validate_and_clean_data d).word_count = wcS (cleanS d.text) := by
  unfold validate_and_clean_data
  simp [h]

/-- Claim C5: after a primary extraction that passes the raw >50-word gate,
the word count recomputed from the cleaned text is checked against the
100-word floor, and a cleaned count below 100 routes the call to the
fallback extractor. -/
theorem C5_cleaned_floor_routes_to_fallback (env : ExtractEnv)
    (title text : String) (aus : List String) (pd : Option Nat)
    (hv : env.syntacticallyValid = true) (hp : env.probe = .status 200)
    (hparsed : env.primary = .parsed title text aus pd)
    (hne : text ≠ "") (hraw : 50 < wcS text)
    (hthin : wcS (cleanS text) < 100) :
    extract_article env = fallback_extraction env := by
  unfold extract_article
  rw [validate_url_ok env hv hp, hparsed]
  have hcond : (text ≠ "" && 50 < wcS text) = true := by simp [hne, hraw]
  simp only [hcond, if_true]
  have hwc : (validate_and_clean_data
      { title := title, text := text, authors := aus, publish_date := pd,
        source_url := env.url, word_count := wcS text,
        extraction_method := "newspaper3k" }).word_count = wcS (cleanS text) :=
    validate_word_count _ hne
  have : ¬ 100 ≤ (validate_and_clean_data
      { title := title, text := text, authors := aus, publish_date := pd,
        source_url := env.url, word_count := wcS text,
        extraction_method := "newspaper3k" }).word_count := by
    rw [hwc]; omega
  simp [this]

/-- Sixty `b` words: over the raw 50-word gate, under the 100-word cleaned
floor (the cleaner leaves them intact up to the final strip). -/
def bWords60 : String := ⟨(List.replicate 60 ['b', ' ']).flatten⟩

/-- Environment for the C5 witness: a 60-word primary text. -/
def envC5thin : ExtractEnv :=
  { url := "http://example.com/a", syntacticallyValid := true, probe := .status 200,
    primary := .parsed "T" bWords60 [] none, fallbackFetch := .page blankSoup,
    parseDate := fun _ => none }

/-- Witness for C5: the 60-word text passes the raw gate, cleans to 60
words (< 100) and routes to the fallback. -/
theorem C5_witness :
    50 < wcS bWords60 ∧ wcS (cleanS bWords60) < 100 ∧
    extract_article envC5thin = fallback_extraction envC5thin :=
  ⟨by decide, by decide,
   C5_cleaned_floor_routes_to_fallback envC5thin "T" bWords60 [] none rfl rfl rfl
     (by decide) (by decide) (by decide)⟩

/-! ### The publish-date strategy chain -/

/-- The candidate a truthiness-guarded tag content contributes (spec: a
strategy applies only when its tag is present with nonempty content). -/
def contentCand (o : Option String) : Option String :=
  match o with
  | some c => if c ≠ "" then some c else none
  | none => none

/-- The ordered list of date candidates the spec describes:
`article:published_time` meta, `publishdate` meta, `date` meta, the
`datetime` attributes of `<time>` elements, then the `datePublished` of the
JSON-LD blocks. -/
def dateCandidates (soup : Soup) : List String :=
  (contentCand soup.metaPublishedTime).toList ++
  ((contentCand soup.metaPublishdate).toList ++
   ((contentCand soup.metaDate).toList ++
    (soup.timeDatetimes.filterMap contentCand ++
     soup.ldScripts.filterMap fun sc => sc.bind ldCandidate)))

/-- A code strategy (`some` short-circuits, `none` falls through) is
`Option.or`. -/
theorem or_match (x y : Option Nat) :
    (match x with | some d => some d | none => y) = x.or y := by
  cases x <;> rfl

/-- Trying `parse` on the candidates a guard `g` extracts from each element
is searching the extracted candidates. -/
theorem findSome?_filterMap_eq {α β γ : Type} (l : List α) (g : α → Option β)
    (parse : β → Option γ) :
    l.findSome? (fun x => match g x with | some b => parse b | none => none)
      = (l.filterMap g).findSome? parse := by
  induction l with
  | nil => rfl
  | cons a t ih =>
    cases hg : g a with
    | none => simp [List.findSome?_cons, List.filterMap_cons, hg, ih]
    | some b =>
      simp only [List.findSome?_cons, List.filterMap_cons, hg]
      cases parse b <;> simp [ih]

/-- A guarded meta strategy is the search over its candidate list. -/
theorem metaTry_eq (parse : String → Option Nat) (o : Option String) :
    metaContentTry parse o = (contentCand o).toList.findSome? parse := by
  cases o with
  | none => rfl
  | some c =>
    by_cases h : c = ""
    · simp [metaContentTry, contentCand, h]
    · simp only [metaContentTry, contentCand, h, ne_eq, not_false_eq_true, if_true,
        Option.toList_some, List.findSome?_cons]
      cases parse c <;> simp

/-- The `<time datetime>` strategy is the search over its candidates. -/
theorem timeTry_eq (parse : String → Option Nat) (l : List (Option String)) :
    l.findSome? (timeAttrTry parse) = (l.filterMap contentCand).findSome? parse := by
  rw [← findSome?_filterMap_eq l contentCand parse]
  congr 1
  funext dt
  cases dt with
  | none => rfl
  | some a => by_cases h : a = "" <;> simp [timeAttrTry, contentCand, h]

/-- The JSON-LD strategy is the search over its candidates. -/
theorem ldTry_eq (parse : String → Option Nat) (l : List (Option LdNode)) :
    l.findSome? (ldScriptTry parse)
      = (l.filterMap fun sc => sc.bind ldCandidate).findSome? parse := by
  rw [← findSome?_filterMap_eq l (fun sc => sc.bind ldCandidate) parse]
  congr 1
  funext sc
  cases sc with
  | none => rfl
  | some node =>
    simp only [ldScriptTry, Option.bind_some]
    cases h : ldCandidate node <;> simp [h]

/-- `NewsExtractor._extract_publish_date` equals the first parseable
timestamp over the spec's ordered candidate list. -/
theorem extract_publish_date_eq_candidates (parse : String → Option Nat) (soup : Soup) :
    extract_publish_date parse soup = (dateCandidates soup).findSome? parse := by
  unfold extract_publish_date dateCandidates
  rw [List.findSome?_append, List.findSome?_append, List.findSome?_append,
    List.findSome?_append]
  rw [or_match, or_match, or_match, or_match]
  rw [metaTry_eq parse soup.metaPublishedTime, metaTry_eq parse soup.metaPublishdate,
    metaTry_eq parse soup.metaDate, timeTry_eq parse soup.timeDatetimes,
    ldTry_eq parse soup.ldScripts]

/-- The page of the C8 scenario: no meta tags, no time elements, one
JSON-LD block with a `datePublished`. -/
def jsonLdOnlyPage : Soup :=
  { blankSoup with ldScripts := [some (.dict (some "2024-08-13T10:00:00Z"))] }

/-- A parse oracle that parses exactly the scenario's ISO timestamp. -/
def parseIsoExample : String → Option Nat :=
  fun s => if s = "2024-08-13T10:00:00Z" then some 20240813 else none

/-- Claim C8: the publish-date resolver equals, for every parse oracle and
page, the first parseable candidate over the spec's ordered strategies
(meta property, `publishdate` meta, `date` meta, `<time datetime>`,
JSON-LD), parse failures being swallowed; when every candidate fails the
result is absent (`none`, not an error); and a JSON-LD `datePublished`
block resolves the date with no meta tags present. -/
theorem C8_publish_date_strategy_order :
    (∀ (parse : String → Option Nat) (soup : Soup),
      extract_publish_date parse soup = (dateCandidates soup).findSome? parse) ∧
    (∀ (parse : String → Option Nat) (soup : Soup),
      (∀ c ∈ dateCandidates soup, parse c = none) →
      extract_publish_date parse soup = none) ∧
    extract_publish_date parseIsoExample jsonLdOnlyPage = some 20240813 := by
  have hnone : ∀ {α β : Type} (parse : α → Option β) (cs : List α),
      (∀ c ∈ cs, parse c = none) → cs.findSome? parse = none := by
    intro α β parse cs
    induction cs with
    | nil => intro _; rfl
    | cons a t ih =>
      intro hall
      have ha : parse a = none := hall a (by simp)
      simp only [List.findSome?_cons, ha]
      exact ih fun c hc => hall c (by simp [hc])
  refine ⟨extract_publish_date_eq_candidates, fun parse soup hall => ?_, by decide⟩
  rw [extract_publish_date_eq_candidates]
  exact hnone parse (dateCandidates soup) hall

/-- Witness for C8: on a page with no candidates, the always-failing oracle
yields an absent date. -/
theorem C8_witness :
    (∀ c ∈ dateCandidates blankSoup, (fun _ => (none : Option Nat)) c = none) ∧
    extract_publish_date (fun _ => none) blankSoup = none :=
  ⟨by simp [dateCandidates, blankSoup, contentCand],
   C8_publish_date_strategy_order.2.1 (fun _ => none) blankSoup
     (by simp [dateCandidates, blankSoup, contentCand])⟩

/-! ### The fallback word-count floor (claims C1 and C3) -/

/-- The primary-attempt outcomes that route `extract_article` to the
fallback: an exception, empty text, a raw word count of at most 50, or a
cleaned word count under 100. -/
def primaryFallsBack : PrimaryOutcome → Prop
  | .throws => True
  | .parsed _ text _ _ => text = "" ∨ wcS text ≤ 50 ∨ wcS (cleanS text) < 100

/-- Under any fallback-routing primary outcome, `extract_article` returns
exactly the fallback extractor's result. -/
theorem extract_article_fallback_of (env : ExtractEnv)
    (hv : env.syntacticallyValid = true) (hp : env.probe = .status 200)
    (hfb : primaryFallsBack env.primary) :
    extract_article env = fallback_extraction env := by
  unfold extract_article
  rw [validate_url_ok env hv hp]
  cases hprim : env.primary with
  | throws => simp
  | parsed title text aus pd =>
    rw [hprim] at hfb
    unfold primaryFallsBack at hfb
    by_cases hgate : (text ≠ "" && 50 < wcS text) = true
    · simp only [Bool.and_eq_true, decide_eq_true_eq] at hgate
      obtain ⟨hne, hlt⟩ := hgate
      have hclean : wcS (cleanS text) < 100 := by
        rcases hfb with h | h | h
        · exact absurd h hne
        · omega
        · exact h
      have hwc : (validate_and_clean_data
          { title := title, text := text, authors := aus, publish_date := pd,
            source_url := env.url, word_count := wcS text,
            extraction_method := "newspaper3k" }).word_count = wcS (cleanS text) :=
        validate_word_count _ hne
      have hnot : ¬ 100 ≤ (validate_and_clean_data
          { title := title, text := text, authors := aus, publish_date := pd,
            source_url := env.url, word_count := wcS text,
            extraction_method := "newspaper3k" }).word_count := by
        rw [hwc]; omega
      simp [hne, hlt, hnot]
    · simp only [Bool.not_eq_true] at hgate
      simp [hgate]
      intro h1 h2 _
      simp [h1, h2] at hgate

/-- The fallback's error message carries the cleaned word count (also when
the text is empty, where the code's `0` equals the word count). -/
theorem fallback_message_wc (text : String) :
    toString (if text = "" then 0 else wcS text) = toString (wcS text) := by
  by_cases h : text = ""
  · rw [h]; rfl
  · rw [if_neg h]

/-- Claim C1, amended: after both strategies have run, the floor the
fallback enforces on the cleaned chosen text is 50 words, not 100 — at
most 50 cleaned words yield the InsufficientContent error, while more than
50 yield a record even when the cleaned count is below 100. -/
theorem C1_amended_fallback_floor_is_50 :
    (∀ (env : ExtractEnv) (soup : Soup),
      env.syntacticallyValid = true → env.probe = .status 200 →
      primaryFallsBack env.primary → env.fallbackFetch = .page soup →
      wcS (extract_content soup) ≤ 50 →
      extract_article env = .error ("Insufficient content extracted. Only " ++
        toString (wcS (extract_content soup)) ++ " words found.")) ∧
    (∀ (env : ExtractEnv) (soup : Soup),
      env.syntacticallyValid = true → env.probe = .status 200 →
      primaryFallsBack env.primary → env.fallbackFetch = .page soup →
      50 < wcS (extract_content soup) →
      extract_article env = .record (validate_and_clean_data
        { title := soup.resolvedTitle, text := extract_content soup,
          authors := extract_authors soup,
          publish_date := extract_publish_date env.parseDate soup,
          source_url := env.url, word_count := wcS (extract_content soup),
          extraction_method := "fallback_beautifulsoup" })) := by
  constructor
  · intro env soup hv hp hfb hpage hwc
    rw [extract_article_fallback_of env hv hp hfb]
    unfold fallback_extraction
    rw [hpage]
    have hgate : (extract_content soup ≠ "" && 50 < wcS (extract_content soup)) = false := by
      have : ¬ 50 < wcS (extract_content soup) := by omega
      simp [this]
    simp only [hgate, Bool.false_eq_true, if_false]
    rw [fallback_message_wc]
  · intro env soup hv hp hfb hpage hwc
    rw [extract_article_fallback_of env hv hp hfb]
    unfold fallback_extraction
    rw [hpage]
    have hne : extract_content soup ≠ "" := by
      intro h
      rw [h] at hwc
      exact absurd hwc (by decide)
    simp [hne, hwc]

/-- An environment whose primary attempt parses empty text and whose
fallback page has a 60-word body: both strategies run, and the fallback's
cleaned chosen text has 60 words. -/
def envC1fb : ExtractEnv :=
  { url := "http://example.com/a", syntacticallyValid := true, probe := .status 200,
    primary := .parsed "Some Headline Here" "" [] none,
    fallbackFetch := .page { blankSoup with bodyText := bWords60 },
    parseDate := fun _ => none }

/-- The word count of a returned record, `none` on an error result. -/
def resultWordCount : ExtractResult → Option Nat
  | .record r => some r.word_count
  | .error _ => none

/-- Counterexample to claim C1: with both strategies run and a cleaned
chosen text of 60 words — below the claimed 100-word floor —
`extract_article` returns a record (of 60 cleaned words), not an
InsufficientContent error. -/
theorem C1_counterexample :
    resultWordCount (extract_article envC1fb) = some 60 ∧ (60 : Nat) < 100 := by
  constructor
  · decide
  · decide

/-- Witness for the amended C1: a fallback page whose full-page text cleans
to 0 words produces the InsufficientContent error through
`extract_article`. -/
def envC1empty : ExtractEnv :=
  { envC1fb with fallbackFetch := .page blankSoup }

/-- Witness for C1 (amended): at most 50 cleaned fallback words give the
error. -/
theorem C1_witness :
    wcS (extract_content blankSoup) ≤ 50 ∧
    extract_article envC1empty = .error ("Insufficient content extracted. Only " ++
      toString (wcS (extract_content blankSoup)) ++ " words found.") :=
  ⟨by decide,
   C1_amended_fallback_floor_is_50.1 envC1empty blankSoup rfl rfl
     (Or.inl rfl) rfl (by decide)⟩

/-- `find?` returns the first satisfying element. -/
theorem find?_first {α : Type} (p : α → Bool) (pre post : List α) (t : α)
    (hpre : ∀ u ∈ pre, p u = false) (ht : p t = true) :
    (pre ++ t :: post).find? p = some t := by
  induction pre with
  | nil => simp [List.find?_cons, ht]
  | cons a l ih =>
    have ha : p a = false := hpre a (by simp)
    simp only [List.cons_append, List.find?_cons, ha]
    exact ih fun u hu => hpre u (by simp [hu])

/-- Claim C3, amended: inside `_extract_content` the strategies are tried
in order with the first one meeting its threshold winning (selector
elements >100 words, concatenated paragraphs >100 words, a div >200
words), and the fourth strategy — full-page text — has no threshold there:
its cleaned text is returned as the chosen content.  But the fallback
extractor still applies its own gate before producing a record: a
non-empty chosen text of at most 50 words yields the InsufficientContent
error, not a record. -/
theorem C3_amended_content_strategies :
    (∀ (soup : Soup) (pre post : List String) (t : String),
      soup.selectorTexts.flatten = pre ++ t :: post →
      (∀ u ∈ pre, wcS u ≤ 100) → 100 < wcS t →
      extract_content soup = cleanS t) ∧
    (∀ soup : Soup,
      (∀ u ∈ soup.selectorTexts.flatten, wcS u ≤ 100) →
      soup.paragraphTexts ≠ [] → 100 < wcS (" ".intercalate soup.paragraphTexts) →
      extract_content soup = cleanS (" ".intercalate soup.paragraphTexts)) ∧
    (∀ (soup : Soup) (pre post : List String) (t : String),
      (∀ u ∈ soup.selectorTexts.flatten, wcS u ≤ 100) →
      (soup.paragraphTexts = [] ∨ wcS (" ".intercalate soup.paragraphTexts) ≤ 100) →
      soup.divTexts = pre ++ t :: post →
      (∀ u ∈ pre, wcS u ≤ 200) → 200 < wcS t →
      extract_content soup = cleanS t) ∧
    (∀ soup : Soup,
      (∀ u ∈ soup.selectorTexts.flatten, wcS u ≤ 100) →
      (soup.paragraphTexts = [] ∨ wcS (" ".intercalate soup.paragraphTexts) ≤ 100) →
      (∀ u ∈ soup.divTexts, wcS u ≤ 200) →
      extract_content soup = cleanS soup.bodyText) ∧
    (∀ (env : ExtractEnv) (soup : Soup),
      env.fallbackFetch = .page soup →
      extract_content soup ≠ "" → wcS (extract_content soup) ≤ 50 →
      fallback_extraction env = .error ("Insufficient content extracted. Only " ++
        toString (wcS (extract_content soup)) ++ " words found.")) := by
  have hparfail : ∀ soup : Soup,
      (soup.paragraphTexts = [] ∨ wcS (" ".intercalate soup.paragraphTexts) ≤ 100) →
      (soup.paragraphTexts ≠ [] && 100 < wcS (" ".intercalate soup.paragraphTexts)) = false := by
    intro soup h
    rcases h with h | h
    · simp [h]
    · have : ¬ 100 < wcS (" ".intercalate soup.paragraphTexts) := by omega
      simp [this]
  refine ⟨?_, ?_, ?_, ?_, ?_⟩
  · intro soup pre post t hflat hpre ht
    unfold extract_content
    rw [hflat, find?_first _ pre post t (fun u hu => by simp [Nat.not_lt.2 (hpre u hu)])
      (by simp [ht])]
  · intro soup hsel hne hcomb
    unfold extract_content
    rw [List.find?_eq_none.2 fun u hu => by simp [Nat.not_lt.2 (hsel u hu)]]
    simp [hne, hcomb]
  · intro soup pre post t hsel hpar hdiv hpre ht
    unfold extract_content
    rw [List.find?_eq_none.2 fun u hu => by simp [Nat.not_lt.2 (hsel u hu)]]
    simp only [hparfail soup hpar, Bool.false_eq_true, if_false]
    rw [hdiv, find?_first _ pre post t (fun u hu => by simp [Nat.not_lt.2 (hpre u hu)])
      (by simp [ht])]
  · intro soup hsel hpar hdivs
    unfold extract_content
    rw [List.find?_eq_none.2 fun u hu => by simp [Nat.not_lt.2 (hsel u hu)]]
    simp only [hparfail soup hpar, Bool.false_eq_true, if_false]
    rw [List.find?_eq_none.2 fun u hu => by simp [Nat.not_lt.2 (hdivs u hu)]]
  · intro env soup hpage hne hwc
    unfold fallback_extraction
    rw [hpage]
    have hgate : (extract_content soup ≠ "" && 50 < wcS (extract_content soup)) = false := by
      have : ¬ 50 < wcS (extract_content soup) := by omega
      simp [this]
    simp only [hgate, Bool.false_eq_true, if_false]
    rw [fallback_message_wc]

/-- A page on which only the full-page strategy yields text, and that text
is non-empty but short. -/
def shortBodyPage : Soup := { blankSoup with bodyText := "short text here" }

/-- An environment whose primary attempt parses empty text and whose
fallback page is `shortBodyPage`. -/
def envC3fb : ExtractEnv :=
  { url := "http://example.com/a", syntacticallyValid := true, probe := .status 200,
    primary := .parsed "Some Headline Here" "" [] none,
    fallbackFetch := .page shortBodyPage, parseDate := fun _ => none }

/-- Counterexample to claim C3: the fourth strategy yields non-empty text
("short text here", 3 words), yet the fallback produces the
InsufficientContent error, not a record. -/
theorem C3_counterexample :
    extract_content shortBodyPage ≠ "" ∧
    extract_article envC3fb = .error "Insufficient content extracted. Only 3 words found." := by
  constructor
  · decide
  · decide

/-- 101 `c` words: above the selector strategy's 100-word threshold. -/
def cWords101 : String := ⟨(List.replicate 101 ['c', ' ']).flatten⟩

/-- A page whose second selector element is the first to meet the selector
threshold. -/
def selectorPage : Soup :=
  { blankSoup with selectorTexts := [["tiny bit", cWords101]] }

/-- Witness for C3 (amended): the first selector element over 100 words
wins, and a short non-empty full-page text yields the error. -/
theorem C3_witness :
    (selectorPage.selectorTexts.flatten = ["tiny bit"] ++ cWords101 :: []) ∧
    extract_content selectorPage = cleanS cWords101 ∧
    fallback_extraction envC3fb = .error ("Insufficient content extracted. Only " ++
      toString (wcS (extract_content shortBodyPage)) ++ " words found.") :=
  ⟨rfl,
   C3_amended_content_strategies.1 selectorPage ["tiny bit"] [] cWords101 rfl
     (by decide) (by decide),
   C3_amended_content_strategies.2.2.2.2 envC3fb shortBodyPage rfl (by decide) (by decide)⟩

/-! ### Author invariants (claim C9) -/

/-- The authors of a returned record, `none` on an error result. -/
def resultAuthors : ExtractResult → Option (List String)
  | .record r => some r.authors
  | .error _ => none

/-- Every record the fallback extractor returns is the validated record
built from the page's resolved parts. -/
theorem fallback_record_shape (env : ExtractEnv) (r : ArticleRecord)
    (h : fallback_extraction env = .record r) :
    ∃ soup : Soup, env.fallbackFetch = .page soup ∧
      r = validate_and_clean_data
        { title := soup.resolvedTitle, text := extract_content soup,
          authors := extract_authors soup,
          publish_date := extract_publish_date env.parseDate soup,
          source_url := env.url, word_count := wcS (extract_content soup),
          extraction_method := "fallback_beautifulsoup" } := by
  unfold fallback_extraction at h
  split at h
  · exact absurd h (by simp)
  · exact absurd h (by simp)
  · rename_i soup heq
    simp only [ne_eq] at h
    split at h
    · exact ⟨soup, heq, by injection h with h'; exact h'.symm⟩
    · exact absurd h (by simp)

/-- Every record `extract_article` returns is a validated record, from the
primary parse (method `newspaper3k`) or from the fallback page (method
`fallback_beautifulsoup`, authors resolved by `_extract_authors`). -/
theorem extract_record_shape (env : ExtractEnv) (r : ArticleRecord)
    (h : extract_article env = .record r) :
    (∃ d : RawData, r = validate_and_clean_data d ∧
      d.extraction_method = "newspaper3k") ∨
    (∃ soup : Soup, r = validate_and_clean_data
        { title := soup.resolvedTitle, text := extract_content soup,
          authors := extract_authors soup,
          publish_date := extract_publish_date env.parseDate soup,
          source_url := env.url, word_count := wcS (extract_content soup),
          extraction_method := "fallback_beautifulsoup" }) := by
  unfold extract_article at h
  by_cases hv : (!(validate_url env).1) = true
  · rw [if_pos hv] at h
    exact absurd h (by simp)
  · rw [if_neg hv] at h
    cases hprim : env.primary with
    | throws =>
      rw [hprim] at h
      obtain ⟨soup, _, hr⟩ := fallback_record_shape env r h
      exact Or.inr ⟨soup, hr⟩
    | parsed title text aus pd =>
      rw [hprim] at h
      simp only [ne_eq] at h
      split at h
      · split at h
        · injection h with h'
          exact Or.inl ⟨_, h'.symm, rfl⟩
        · obtain ⟨soup, _, hr⟩ := fallback_record_shape env r h
          exact Or.inr ⟨soup, hr⟩
      · obtain ⟨soup, _, hr⟩ := fallback_record_shape env r h
        exact Or.inr ⟨soup, hr⟩

/-- The validated record's authors are capped at 5. -/
theorem vacd_authors_le5 (d : RawData) :
    (validate_and_clean_data d).authors.length ≤ 5 := by
  unfold validate_and_clean_data
  by_cases h : d.authors = []
  · simp [h]
  · simp only [h, ne_eq, not_false_eq_true, if_true]
    exact List.length_take_le 5 _

/-- The validated record's authors pass the length and placeholder filter:
entries are shorter than 100 characters and never case-insensitively a
placeholder. -/
theorem vacd_authors_filtered (d : RawData) :
    ∀ a ∈ (validate_and_clean_data d).authors,
      a.data.length < 100 ∧
      lowerS a ≠ "admin" ∧ lowerS a ≠ "editor" ∧ lowerS a ≠ "staff" := by
  intro a ha
  unfold validate_and_clean_data at ha
  by_cases h : d.authors = []
  · rw [h] at ha
    simp at ha
  · simp only [h, ne_eq, not_false_eq_true, if_true] at ha
    have ha' := List.mem_of_mem_take ha
    have hp := List.of_mem_filter ha'
    simp only [Bool.and_eq_true, decide_eq_true_eq, Bool.not_eq_true'] at hp
    obtain ⟨hlen, hplace⟩ := hp
    have hmem : lowerS a ∉ placeholderAuthors := by
      intro hmem
      have htrue : placeholderAuthors.contains (lowerS a) = true := by
        simpa [List.contains] using List.elem_iff.2 hmem
      rw [htrue] at hplace
      exact absurd hplace (by simp)
    refine ⟨hlen, ?_, ?_, ?_⟩ <;>
      · intro heq
        exact hmem (by rw [heq]; simp [placeholderAuthors])

/-- Validation preserves deduplicated author lists (filter and cap keep
`Nodup`). -/
theorem vacd_authors_nodup (d : RawData) (h : d.authors.Nodup) :
    (validate_and_clean_data d).authors.Nodup := by
  unfold validate_and_clean_data
  by_cases he : d.authors = []
  · simp [he]
  · simp only [he, ne_eq, not_false_eq_true, if_true]
    exact List.Nodup.sublist (List.take_sublist 5 _) (List.Nodup.filter _ h)

/-- `_extract_authors` deduplicates. -/
theorem extract_authors_nodup (soup : Soup) : (extract_authors soup).Nodup := by
  unfold extract_authors
  exact List.nodup_reverse.2 (List.nodup_dedup _)

/-- Validation passes the extraction method through. -/
theorem vacd_method (d : RawData) :
    (validate_and_clean_data d).extraction_method = d.extraction_method := rfl

/-- Claim C9, amended: in every returned record the authors field has at
most 5 entries, no entry of 100 or more characters and no entry equal
(case-insensitively) to "admin", "editor" or "staff"; records produced by
the fallback path are additionally deduplicated, but a record from the
primary path passes the primary parser's author list through the filter
without deduplication, so duplicates can survive there. -/
theorem C9_amended_author_invariants :
    ∀ (env : ExtractEnv) (r : ArticleRecord), extract_article env = .record r →
      r.authors.length ≤ 5 ∧
      (∀ a ∈ r.authors, a.data.length < 100 ∧
        lowerS a ≠ "admin" ∧ lowerS a ≠ "editor" ∧ lowerS a ≠ "staff") ∧
      (r.extraction_method = "fallback_beautifulsoup" → r.authors.Nodup) := by
  intro env r h
  rcases extract_record_shape env r h with ⟨d, hr, hm⟩ | ⟨soup, hr⟩
  · subst hr
    refine ⟨vacd_authors_le5 d, vacd_authors_filtered d, fun habs => ?_⟩
    rw [vacd_method, hm] at habs
    exact absurd habs (by decide)
  · subst hr
    refine ⟨vacd_authors_le5 _, vacd_authors_filtered _, fun _ => ?_⟩
    exact vacd_authors_nodup _ (extract_authors_nodup soup)

/-- One hundred `a` words: passes the raw gate and the 100-word cleaned
floor, so the primary path returns a record. -/
def aWords100 : String := ⟨(List.replicate 100 ['a', ' ']).flatten⟩

/-- An environment whose primary parse reports the same author twice. -/
def envC9dup : ExtractEnv :=
  { url := "http://example.com/a", syntacticallyValid := true, probe := .status 200,
    primary := .parsed "A Perfectly Ordinary Headline" aWords100
      ["John Doe", "John Doe"] none,
    fallbackFetch := .page blankSoup, parseDate := fun _ => none }

/-- Counterexample to claim C9: a record returned through the primary path
carries the duplicated author list — it is not deduplicated. -/
theorem C9_counterexample :
    resultAuthors (extract_article envC9dup) = some ["John Doe", "John Doe"] ∧
    ¬ (["John Doe", "John Doe"] : List String).Nodup := ⟨by decide, by decide⟩

/-- The record the C9 environment produces. -/
def recC9 : ArticleRecord := validate_and_clean_data
  { title := "A Perfectly Ordinary Headline", text := aWords100,
    authors := ["John Doe", "John Doe"], publish_date := none,
    source_url := "http://example.com/a", word_count := wcS aWords100,
    extraction_method := "newspaper3k" }

/-- Witness for C9 (amended) at a concrete returned record. -/
theorem C9_witness :
    extract_article envC9dup = .record recC9 ∧
    (recC9.authors.length ≤ 5 ∧
     (∀ a ∈ recC9.authors, a.data.length < 100 ∧
       lowerS a ≠ "admin" ∧ lowerS a ≠ "editor" ∧ lowerS a ≠ "staff") ∧
     (recC9.extraction_method = "fallback_beautifulsoup" → recC9.authors.Nodup)) :=
  have h : extract_article envC9dup = .record recC9 := by decide
  ⟨h, C9_amended_author_invariants envC9dup recC9 h⟩

/-! ### Cleaner idempotence (claim C2) -/

/-- No two adjacent plain spaces. -/
def spacedOk (a b : Char) : Prop := ¬(a = ' ' ∧ b = ' ')

/-- Well-collapsed whitespace: every whitespace character is a plain space
and no two spaces are adjacent — exactly the texts `collapseWs` produces. -/
def WsOk (l : List Char) : Prop :=
  (∀ c ∈ l, isWsC c = true → c = ' ') ∧ List.Chain' spacedOk l

/-- The head of the collapse of text starting with a non-whitespace
character is that character. -/
theorem collapse_head_nws {c : Char} (hw : isWsC c = false) (rs : List Char) :
    (collapseWs (c :: rs)).head? = some c := by
  cases rs with
  | nil => simp [collapseWs, hw]
  | cons c' rs' => simp [collapseWs, hw]

/-- The output of the whitespace collapse is well collapsed. -/
theorem collapse_WsOk (l : List Char) : WsOk (collapseWs l) := by
  induction l with
  | nil => exact ⟨by simp [collapseWs], by simp [collapseWs]⟩
  | cons c rest ih =>
    cases rest with
    | nil =>
      by_cases hw : isWsC c = true
      · rw [show collapseWs [c] = [' '] by simp [collapseWs, hw]]
        exact ⟨by intro a ha _; simpa using ha, by simp⟩
      · rw [show collapseWs [c] = [c] by simp [collapseWs, hw]]
        refine ⟨?_, by simp⟩
        intro a ha hws
        rw [List.mem_singleton.1 ha] at hws
        exact absurd hws (by simp [hw])
    | cons c' rs =>
      by_cases hw : isWsC c = true
      · by_cases hw' : isWsC c' = true
        · rw [show collapseWs (c :: c' :: rs) = collapseWs (c' :: rs) by
            simp [collapseWs, hw, hw']]
          exact ih
        · rw [show collapseWs (c :: c' :: rs) = ' ' :: collapseWs (c' :: rs) by
            simp [collapseWs, hw, hw']]
          refine ⟨?_, ?_⟩
          · intro a ha hws
            rcases List.mem_cons.1 ha with h | h
            · exact h
            · exact ih.1 a h hws
          · rw [List.chain'_cons']
            refine ⟨?_, ih.2⟩
            intro b hb hcontra
            obtain ⟨_, h2⟩ := hcontra
            rw [collapse_head_nws (by simpa using hw') rs] at hb
            have hbc : c' = b := by simpa using hb
            rw [← hbc] at h2
            rw [h2] at hw'
            exact hw' (by decide)
      · rw [show collapseWs (c :: c' :: rs) = c :: collapseWs (c' :: rs) by
          simp [collapseWs, hw]]
        refine ⟨?_, ?_⟩
        · intro a ha hws
          rcases List.mem_cons.1 ha with h | h
          · rw [h] at hws
            exact absurd hws (by simp [hw])
          · exact ih.1 a h hws
        · rw [List.chain'_cons']
          refine ⟨?_, ih.2⟩
          intro b _ hcontra
          obtain ⟨h1, _⟩ := hcontra
          rw [h1] at hw
          exact hw (by decide)

/-- Collapsing is the identity on well-collapsed text. -/
theorem collapse_eq_self (l : List Char) (h : WsOk l) : collapseWs l = l := by
  induction l with
  | nil => rfl
  | cons c rest ih =>
    obtain ⟨hs, hc⟩ := h
    have hrest : WsOk rest := ⟨fun a ha hws => hs a (by simp [ha]) hws, hc.tail⟩
    cases rest with
    | nil =>
      by_cases hw : isWsC c = true
      · have hcsp : c = ' ' := hs c (by simp) hw
        simp [collapseWs, hw, hcsp]
      · simp [collapseWs, hw]
    | cons c' rs =>
      by_cases hw : isWsC c = true
      · have hcsp : c = ' ' := hs c (by simp) hw
        have hc' : isWsC c' = false := by
          by_cases h' : isWsC c' = true
          · have hcsp' : c' = ' ' := hs c' (by simp) h'
            rw [List.chain'_cons] at hc
            exact absurd ⟨hcsp, hcsp'⟩ hc.1
          · simpa using h'
        rw [show collapseWs (c :: c' :: rs) = ' ' :: collapseWs (c' :: rs) by
          simp [collapseWs, hw, hc']]
        rw [ih hrest, hcsp]
      · rw [show collapseWs (c :: c' :: rs) = c :: collapseWs (c' :: rs) by
          simp [collapseWs, hw]]
        rw [ih hrest]

/-- `WsOk` passes to suffixes. -/
theorem wsOk_suffix {l t : List Char} (h : WsOk l) (ht : t <:+ l) : WsOk t :=
  ⟨fun c hc hw => h.1 c (ht.subset hc) hw, h.2.suffix ht⟩

/-- `WsOk` is reversal-invariant. -/
theorem wsOk_reverse {l : List Char} (h : WsOk l) : WsOk l.reverse := by
  refine ⟨fun c hc hw => h.1 c (List.mem_reverse.1 hc) hw, ?_⟩
  rw [List.chain'_reverse]
  exact h.2.imp fun a b hab => fun ⟨h1, h2⟩ => hab ⟨h2, h1⟩

/-- `WsOk` survives stripping. -/
theorem wsOk_stripL {l : List Char} (h : WsOk l) : WsOk (stripL l) := by
  unfold stripL
  exact wsOk_reverse (wsOk_suffix (wsOk_reverse (wsOk_suffix h
    (List.dropWhile_suffix _))) (List.dropWhile_suffix _))

/-- Well-collapsed text has no newline. -/
theorem noNl {l : List Char} (h : WsOk l) : '\n' ∉ l := by
  intro hm
  have := h.1 '\n' hm (by decide)
  exact absurd this (by decide)

/-- Splitting newline-free text on newlines gives one line. -/
theorem splitNl_no_nl (l : List Char) (h : '\n' ∉ l) : splitNl l = [l] := by
  induction l with
  | nil => rfl
  | cons c rest ih =>
    have hc : ¬ c = '\n' := fun habs => h (by simp [habs])
    have hr : splitNl rest = [rest] := ih fun hm => h (by simp [hm])
    simp [splitNl, hc, hr]

/-- Text without leading and trailing whitespace. -/
def Stripped (l : List Char) : Prop :=
  (∀ c ∈ l.head?, isWsC c = false) ∧ (∀ c ∈ l.getLast?, isWsC c = false)

/-- The head surviving `dropWhile` fails the predicate. -/
theorem head?_dropWhile {p : Char → Bool} {l : List Char} {c : Char}
    (h : (l.dropWhile p).head? = some c) : p c = false := by
  induction l with
  | nil => simp at h
  | cons a t ih =>
    rw [List.dropWhile_cons] at h
    by_cases hp : p a = true
    · rw [if_pos hp] at h
      exact ih h
    · rw [if_neg hp] at h
      simp at h
      rw [← h]
      simp [hp]

/-- A nonempty suffix keeps the last element. -/
theorem getLast?_of_suffix {t l : List Char} (h : t <:+ l) (hne : t ≠ []) :
    t.getLast? = l.getLast? := by
  obtain ⟨s, rfl⟩ := h
  rw [List.getLast?_append]
  cases hg : t.getLast? with
  | none => exact absurd (List.getLast?_eq_none_iff.1 hg) hne
  | some c => rfl

/-- `dropWhile` is the identity when the head already fails the predicate. -/
theorem dropWhile_eq_self_of_head {p : Char → Bool} {l : List Char}
    (h : ∀ c ∈ l.head?, p c = false) : l.dropWhile p = l := by
  cases l with
  | nil => rfl
  | cons a t =>
    rw [List.dropWhile_cons, if_neg]
    simp [h a (by simp)]

/-- Stripping strips. -/
theorem stripped_stripL (l : List Char) : Stripped (stripL l) := by
  unfold stripL
  constructor
  · intro c hc
    rw [List.head?_reverse] at hc
    by_cases hB : ((l.dropWhile isWsC).reverse).dropWhile isWsC = []
    · rw [hB] at hc
      simp at hc
    · rw [getLast?_of_suffix (List.dropWhile_suffix _) hB, List.getLast?_reverse] at hc
      cases hA : (l.dropWhile isWsC).head? with
      | none => rw [hA] at hc; simp at hc
      | some d =>
        rw [hA] at hc
        simp at hc
        rw [← hc]
        exact head?_dropWhile hA
  · intro c hc
    rw [List.getLast?_reverse] at hc
    exact head?_dropWhile hc

/-- Stripping is the identity on stripped text. -/
theorem stripL_eq_self {l : List Char} (h : Stripped l) : stripL l = l := by
  unfold stripL
  rw [dropWhile_eq_self_of_head h.1]
  rw [dropWhile_eq_self_of_head (by
    intro c hc
    rw [List.head?_reverse] at hc
    exact h.2 c hc)]
  exact List.reverse_reverse l

/-- Stripping is idempotent. -/
theorem stripL_idem (l : List Char) : stripL (stripL l) = stripL l :=
  stripL_eq_self (stripped_stripL l)

/-- A substitution whose matcher finds nothing on any suffix is the
identity. -/
theorem subAllF_id (m : Option Char → List Char → Option Nat) :
    ∀ (fuel : Nat) (prev : Option Char) (l : List Char),
      (∀ (p : Option Char) (t : List Char), t <:+ l → m p t = none) →
      subAllF m fuel prev l = l := by
  intro fuel
  induction fuel with
  | zero => intro prev l _; rfl
  | succ f ih =>
    intro prev l h
    cases l with
    | nil => rfl
    | cons c rest =>
      rw [show subAllF m (f + 1) prev (c :: rest) = (match m prev (c :: rest) with
        | some (n + 1) =>
          subAllF m f (((c :: rest).take (n + 1)).getLast?) ((c :: rest).drop (n + 1))
        | _ => c :: subAllF m f (some c) rest) from rfl]
      rw [h prev (c :: rest) (List.suffix_refl _)]
      exact congrArg (c :: ·) (ih (some c) rest fun p t ht =>
        h p t (ht.trans (List.suffix_cons c rest)))

/-- The URL pattern cannot match without a slash. -/
theorem urlM_none (s : List Char) (h : '/' ∉ s) : urlM s = none := by
  unfold urlM
  have h1 : "https://".data.isPrefixOf s = false := by
    cases hp : "https://".data.isPrefixOf s with
    | false => rfl
    | true =>
      exact absurd ((List.isPrefixOf_iff_prefix.1 hp).sublist.subset (by decide)) h
  have h2 : "http://".data.isPrefixOf s = false := by
    cases hp : "http://".data.isPrefixOf s with
    | false => rfl
    | true =>
      exact absurd ((List.isPrefixOf_iff_prefix.1 hp).sublist.subset (by decide)) h
  simp [h1, h2]

/-- The email pattern cannot match without an `@`. -/
theorem emailM_none (p : Option Char) (s : List Char) (h : '@' ∉ s) :
    emailM p s = none := by
  unfold emailM
  by_cases h0 : (s.takeWhile isLocalC).length = 0
  · rw [if_pos h0]
  · rw [if_neg h0]
    by_cases hb : isWordOpt p = isWordOpt s.head?
    · rw [if_pos hb]
    · rw [if_neg hb]
      cases hd : s.drop (s.takeWhile isLocalC).length with
      | nil => rfl
      | cons a r =>
        have ha : ¬ a = '@' := by
          intro habs
          apply h
          apply (List.drop_suffix _ s).subset
          rw [hd, habs]
          simp
        simp [ha]

/-- The character filter is the identity on safe text. -/
theorem charFilterL_eq_self (l : List Char) (h : ∀ c ∈ l, isSafeC c = true) :
    charFilterL l = l := by
  unfold charFilterL
  induction l with
  | nil => rfl
  | cons c rest ih =>
    rw [List.map_cons, if_pos (h c (by simp)), ih fun a ha => h a (by simp [ha])]

/-- The character filter only outputs safe characters. -/
theorem charFilterL_safe (l : List Char) : ∀ c ∈ charFilterL l, isSafeC c = true := by
  intro c hc
  unfold charFilterL at hc
  obtain ⟨a, _, ha⟩ := List.mem_map.1 hc
  by_cases hs : isSafeC a = true
  · rw [if_pos hs] at ha
    exact ha ▸ hs
  · rw [if_neg hs] at ha
    rw [← ha]
    decide

/-- Collapsing introduces only spaces. -/
theorem collapseWs_subset (l : List Char) :
    ∀ a ∈ collapseWs l, a ∈ l ∨ a = ' ' := by
  induction l with
  | nil => intro a ha; exact absurd ha (by simp [collapseWs])
  | cons c rest ih =>
    intro a ha
    cases rest with
    | nil =>
      by_cases hw : isWsC c = true
      · rw [show collapseWs [c] = [' '] by simp [collapseWs, hw]] at ha
        exact Or.inr (by simpa using ha)
      · rw [show collapseWs [c] = [c] by simp [collapseWs, hw]] at ha
        exact Or.inl ha
    | cons c' rs =>
      by_cases hw : isWsC c = true
      · by_cases hw' : isWsC c' = true
        · rw [show collapseWs (c :: c' :: rs) = collapseWs (c' :: rs) by
            simp [collapseWs, hw, hw']] at ha
          rcases ih a ha with h | h
          · exact Or.inl (by simp [h])
          · exact Or.inr h
        · rw [show collapseWs (c :: c' :: rs) = ' ' :: collapseWs (c' :: rs) by
            simp [collapseWs, hw, hw']] at ha
          rcases List.mem_cons.1 ha with h | h
          · exact Or.inr h
          · rcases ih a h with h' | h'
            · exact Or.inl (by simp [h'])
            · exact Or.inr h'
      · rw [show collapseWs (c :: c' :: rs) = c :: collapseWs (c' :: rs) by
          simp [collapseWs, hw]] at ha
        rcases List.mem_cons.1 ha with h | h
        · exact Or.inl (by simp [h])
        · rcases ih a h with h' | h'
          · exact Or.inl (by simp [h'])
          · exact Or.inr h'

/-- Stripping keeps a sublist. -/
theorem stripL_subset (l : List Char) : ∀ a ∈ stripL l, a ∈ l := by
  intro a ha
  unfold stripL at ha
  rw [List.mem_reverse] at ha
  have h1 := (List.dropWhile_suffix (l := (l.dropWhile isWsC).reverse) isWsC).subset ha
  rw [List.mem_reverse] at h1
  exact (List.dropWhile_suffix isWsC).subset h1

/-- Joining a single line inserts nothing. -/
theorem joinSp_single (x : List Char) : joinSp [x] = x := by
  simp [joinSp, List.intercalate]

/-- Joining no lines gives the empty text. -/
theorem joinSp_nil : joinSp [] = [] := by
  simp [joinSp, List.intercalate]

/-- On newline-free text the line filter keeps or drops the whole stripped
text. -/
theorem lineFilterL_no_nl (z : List Char) (h : '\n' ∉ z) :
    lineFilterL z = if keepLineB (stripL z) then stripL z else [] := by
  unfold lineFilterL
  rw [splitNl_no_nl z h]
  by_cases hk : keepLineB (stripL z) = true
  · rw [if_pos hk]
    simp only [List.map_cons, List.map_nil, List.filter_cons, hk, if_true, List.filter_nil]
    rw [joinSp_single, stripL_idem]
  · rw [if_neg hk]
    have hk' : keepLineB (stripL z) = false := by simpa using hk
    simp only [List.map_cons, List.map_nil, List.filter_cons, hk', Bool.false_eq_true,
      if_false, List.filter_nil]
    rw [joinSp_nil]
    rfl

/-- The cleaner on nonempty input, pass by pass. -/
theorem clean_eq_of_ne (y : List Char) (hy : y ≠ []) :
    clean_extracted_text y =
      lineFilterL (collapseWs (charFilterL (emailSubL (urlSubL
        (phrasesSubL (collapseWs y)))))) := by
  unfold clean_extracted_text
  rw [if_neg hy]

/-- What one pass of the cleaner produces: empty text, or well-collapsed,
stripped, safe-charactered text that the line filter keeps. -/
theorem clean_shape (x : List Char) :
    clean_extracted_text x = [] ∨
    (WsOk (clean_extracted_text x) ∧
     stripL (clean_extracted_text x) = clean_extracted_text x ∧
     (∀ c ∈ clean_extracted_text x, isSafeC c = true) ∧
     keepLineB (clean_extracted_text x) = true) := by
  by_cases hx : x = []
  · left
    rw [hx]
    rfl
  · rw [clean_eq_of_ne x hx]
    have hzok : WsOk (collapseWs (charFilterL (emailSubL (urlSubL
        (phrasesSubL (collapseWs x)))))) := collapse_WsOk _
    rw [lineFilterL_no_nl _ (noNl hzok)]
    by_cases hk : keepLineB (stripL (collapseWs (charFilterL (emailSubL (urlSubL
        (phrasesSubL (collapseWs x))))))) = true
    · rw [if_pos hk]
      right
      refine ⟨wsOk_stripL hzok, stripL_idem _, ?_, hk⟩
      intro c hc
      rcases collapseWs_subset _ c (stripL_subset _ c hc) with hcw | hsp
      · exact charFilterL_safe _ c hcw
      · rw [hsp]
        decide
    · rw [if_neg hk]
      left
      rfl

/-- One cleaner pass is idempotent on inputs whose cleaned form the phrase
pass leaves unchanged: the collapse, URL, email, character-filter and line
passes are all the identity on the cleaner's own output (it is
well-collapsed, stripped, safe — in particular without `/` or `@` — and
line-filter-kept), so only a phrase re-match can make a second pass differ. -/
theorem clean_idem_of_phrase_free (x : List Char)
    (h : phrasesSubL (clean_extracted_text x) = clean_extracted_text x) :
    clean_extracted_text (clean_extracted_text x) = clean_extracted_text x := by
  rcases clean_shape x with h0 | ⟨hws, hstr, hsafe, hkeep⟩
  · rw [h0]
    rfl
  · have hne : clean_extracted_text x ≠ [] := by
      intro habs
      rw [habs] at hkeep
      exact absurd hkeep (by decide)
    rw [clean_eq_of_ne _ hne]
    rw [collapse_eq_self _ hws, h]
    have hslash : '/' ∉ clean_extracted_text x := fun hm =>
      absurd (hsafe '/' hm) (by decide)
    have hat : '@' ∉ clean_extracted_text x := fun hm =>
      absurd (hsafe '@' hm) (by decide)
    rw [show urlSubL (clean_extracted_text x) = clean_extracted_text x from
      subAllF_id _ _ _ _ fun p t ht => urlM_none t fun hm => hslash (ht.subset hm)]
    rw [show emailSubL (clean_extracted_text x) = clean_extracted_text x from
      subAllF_id _ _ _ _ fun p t ht => emailM_none p t fun hm => hat (ht.subset hm)]
    rw [charFilterL_eq_self _ hsafe]
    rw [collapse_eq_self _ hws]
    rw [lineFilterL_no_nl _ (noNl hws)]
    rw [hstr, if_pos hkeep]

/-- The phrase-removal pass on `String`s. -/
def phrasesSubS (s : String) : String := ⟨phrasesSubL s.data⟩

/-- Claim C2, amended: the cleaner is not idempotent in general — removing
a boilerplate phrase can splice the surrounding text into a new occurrence
of a phrase, which only a second pass removes (see the counterexample).
It is idempotent on every input whose cleaned text the phrase-removal pass
leaves unchanged: if removing phrases does not change `clean(x)`, then
`clean(clean(x)) = clean(x)`. -/
theorem C2_amended_conditional_idempotence (x : String)
    (h : phrasesSubS (cleanS x) = cleanS x) :
    cleanS (cleanS x) = cleanS x := by
  have hdata := congrArg String.data h
  simp only [phrasesSubS, cleanS] at hdata
  have h2 := clean_idem_of_phrase_free x.data hdata
  simp only [cleanS]
  rw [h2]

set_option maxHeartbeats 8000000 in
/-- Counterexample to claim C2 as stated: deleting `click here` from
`cliclick hereck here ...` splices a new `click here` together out of the
surrounding characters, and only a second pass removes it — the cleaner is
not idempotent. -/
theorem C2_counterexample :
    cleanS (cleanS "cliclick hereck here this sentence is long enough") ≠
      cleanS "cliclick hereck here this sentence is long enough" := by decide

set_option maxHeartbeats 8000000 in
/-- Witness for C2 (amended) at a phrase-free text. -/
theorem C2_witness :
    phrasesSubS (cleanS "an ordinary sentence about mathematics") =
      cleanS "an ordinary sentence about mathematics" ∧
    cleanS (cleanS "an ordinary sentence about mathematics") =
      cleanS "an ordinary sentence about mathematics" :=
  ⟨by decide, C2_amended_conditional_idempotence _ (by decide)⟩
